import Mathlib

set_option maxRecDepth 100000
/-!
# Verification of the steam-hosts tools

A shallow embedding of `update_steam_hosts.py` and `verify_steam_hosts.py`.
Python strings are Lean `String`s; the Python string primitives the scripts
use (`splitlines`, `strip`, `split`, the `in` substring test, `startswith`,
`lower`) are re-implemented below on `List Char` so that every definition is
executable by kernel reduction.  External effects (the `dig`, `nslookup` and
`getent` subprocesses, `socket.getaddrinfo`, the filesystem) are modelled as
explicit environments: an `Option String` models the observable outcome of a
subprocess call, `none` standing for any failure (missing tool, non-zero
exit, timeout, i.e. any raised exception caught by the `try`/`except` in the
source), `some out` for a successful call printing `out`.
-/

namespace SteamHosts

/-- Python `str.isspace` for the ASCII whitespace characters relevant here
(space, tab, newline, carriage return, vertical tab, form feed). -/
def isPySpace (c : Char) : Bool :=
  c = ' ' || c = '\t' || c = '\n' || c = '\r' || c = '\x0b' || c = '\x0c'

/-- Strip leading and trailing whitespace: Python `str.strip()`. -/
def pyStrip (s : String) : String :=
  String.mk (((s.data.dropWhile isPySpace).reverse.dropWhile isPySpace).reverse)

/-- Split a character list at every occurrence of `c` (Python `str.split(c)`). -/
def chSplitOn (c : Char) : List Char → List (List Char)
  | [] => [[]]
  | x :: xs =>
    match chSplitOn c xs with
    | [] => [[x]]
    | h :: t => if x = c then [] :: h :: t else (x :: h) :: t

/-- Python `str.splitlines()` restricted to `'\n'` separators: the empty
string gives no lines, and a single trailing newline produces no extra
empty line. -/
def pySplitlines (s : String) : List String :=
  match s.data with
  | [] => []
  | l =>
    let parts := (chSplitOn '\n' l).map String.mk
    if l.getLast? = some '\n' then parts.dropLast else parts

/-- Helper for `pySplitTokens`: accumulates the current (reversed) token. -/
def splitTokensAux : List Char → List Char → List (List Char)
  | [], acc => if acc.isEmpty then [] else [acc.reverse]
  | c :: cs, acc =>
    if isPySpace c then
      if acc.isEmpty then splitTokensAux cs [] else acc.reverse :: splitTokensAux cs []
    else splitTokensAux cs (c :: acc)

/-- Python `str.split()` with no argument: whitespace-separated tokens,
empty tokens discarded. -/
def pySplitTokens (l : List Char) : List (List Char) :=
  splitTokensAux l []

/-- Python's substring test `needle in hay` (contiguous occurrence). -/
def chIsInfixOf (needle : List Char) : List Char → Bool
  | [] => needle.isEmpty
  | x :: xs => needle.isPrefixOf (x :: xs) || chIsInfixOf needle xs

/-- Python `str.startswith("#")`. -/
def startsWithHash (s : String) : Bool :=
  match s.data with
  | '#' :: _ => true
  | _ => false

/-- Python `str.lower()` (ASCII). -/
def lowerStr (s : String) : String :=
  String.mk (s.data.map Char.toLower)

/-- The part of a line after the first `':'`: Python `line.split(":", 1)[1]`
(empty when there is no colon; the source only evaluates it when the line is
known to contain one). -/
def afterFirstColon (l : List Char) : List Char :=
  (l.dropWhile (fun c => c ≠ ':')).drop 1

/-- Lexicographic comparison of character lists by code point, the order
Python's `sorted` uses on strings. -/
def chListLeB : List Char → List Char → Bool
  | [], _ => true
  | _ :: _, [] => false
  | a :: as, b :: bs =>
    if a.toNat < b.toNat then true
    else if b.toNat < a.toNat then false
    else chListLeB as bs

/-- Python's string order, as a proposition on `String`. -/
def strLe (a b : String) : Prop := chListLeB a.data b.data = true

instance : DecidableRel strLe := fun a b => instDecidableEqBool (chListLeB a.data b.data) true

theorem chListLeB_total : ∀ a b : List Char, chListLeB a b = true ∨ chListLeB b a = true
  | [], _ => Or.inl rfl
  | _ :: _, [] => Or.inr rfl
  | x :: xs, y :: ys => by
    rcases Nat.lt_trichotomy x.toNat y.toNat with h | h | h
    · left; simp [chListLeB, h]
    · rcases chListLeB_total xs ys with ih | ih
      · left; simp [chListLeB, h, ih]
      · right; simp [chListLeB, h, ih]
    · right; simp [chListLeB, h]

theorem chListLeB_trans : ∀ a b c : List Char,
    chListLeB a b = true → chListLeB b c = true → chListLeB a c = true
  | [], _, _, _, _ => rfl
  | _ :: _, [], _, h, _ => by simp [chListLeB] at h
  | _ :: _, _ :: _, [], _, h => by simp [chListLeB] at h
  | x :: xs, y :: ys, z :: zs, h1, h2 => by
    simp only [chListLeB] at h1 h2 ⊢
    rcases Nat.lt_trichotomy x.toNat y.toNat with hxy | hxy | hxy <;>
      rcases Nat.lt_trichotomy y.toNat z.toNat with hyz | hyz | hyz <;>
      simp_all [Nat.lt_irrefl, Nat.lt_asymm] <;>
      first
        | omega
        | exact chListLeB_trans xs ys zs h1 h2

instance : IsTotal String strLe := ⟨fun a b => chListLeB_total a.data b.data⟩

instance : IsTrans String strLe := ⟨fun a b c => chListLeB_trans a.data b.data c.data⟩

/-- Python `sorted(set(ips))` for code-point-ordered strings: deduplicate,
then sort by the lexicographic order. -/
def sortedDedup (l : List String) : List String :=
  List.insertionSort strLe l.dedup

theorem sortedDedup_sorted (l : List String) : (sortedDedup l).Sorted strLe :=
  List.sorted_insertionSort strLe l.dedup

theorem sortedDedup_nodup (l : List String) : (sortedDedup l).Nodup :=
  (List.perm_insertionSort strLe l.dedup).symm.nodup l.nodup_dedup

theorem mem_sortedDedup {a : String} {l : List String} : a ∈ sortedDedup l ↔ a ∈ l := by
  unfold sortedDedup
  rw [List.mem_insertionSort, List.mem_dedup]

/-- `STEAM_DOMAINS`, identical in both scripts. -/
def STEAM_DOMAINS : List String :=
  [ "api.steampowered.com",
    "steamcommunity.com",
    "store.steampowered.com",
    "help.steampowered.com",
    "login.steampowered.com",
    "steamcdn-a.akamaihd.net",
    "cdn.cloudflare.steamstatic.com" ]

/-! ## The updater's hosts-file filter (`update_steam_hosts.main`, loop over `lines`) -/

/-- The removal test of the updater's filter loop:
`any(f" {d}" in f" {stripped} " for d in STEAM_DOMAINS)`. -/
def lineIsSteam (stripped : String) : Bool :=
  STEAM_DOMAINS.any (fun d => chIsInfixOf (' ' :: d.data) ((' ' :: stripped.data) ++ [' ']))

/-- The filter loop of `update_steam_hosts.main` (lines 117-126): returns
the kept lines in order and the count of removed lines. -/
def filterHosts : List String → List String × Nat
  | [] => ([], 0)
  | line :: rest =>
    let r := filterHosts rest
    let stripped := pyStrip line
    if stripped = "" || startsWithHash stripped then (line :: r.1, r.2)
    else if lineIsSteam stripped then (r.1, r.2 + 1)
    else (line :: r.1, r.2)

/-- A line survives the filter iff it is blank, a comment, or fails the
space-padded substring test. -/
def keepLineB (line : String) : Bool :=
  let stripped := pyStrip line
  stripped = "" || startsWithHash stripped || !lineIsSteam stripped

/-- As the spec's claim words it: a managed domain occurs in the stripped
content as a whitespace-delimited token. -/
def tokenIsSteam (stripped : String) : Bool :=
  STEAM_DOMAINS.any (fun d => (pySplitTokens stripped.data).contains d.data)

/-- A line survives the claimed (token-matching) filter. -/
def keepLineClaimedB (line : String) : Bool :=
  let stripped := pyStrip line
  stripped = "" || startsWithHash stripped || !tokenIsSteam stripped

/-- The filter as C1 claims it behaves: remove exactly the non-blank,
non-comment lines containing a managed domain as a whitespace-delimited
token, and report the number of removed lines. -/
def filterHostsClaimed (lines : List String) : List String × Nat :=
  (lines.filter keepLineClaimedB, lines.countP (fun l => !keepLineClaimedB l))

theorem filterHosts_eq (lines : List String) :
    filterHosts lines = (lines.filter keepLineB, lines.countP (fun l => !keepLineB l)) := by
  induction lines with
  | nil => rfl
  | cons l ls ih =>
    simp only [filterHosts, ih, List.filter_cons, List.countP_cons, keepLineB]
    by_cases h1 : pyStrip l = "" <;> by_cases h2 : startsWithHash (pyStrip l) = true <;>
      by_cases h3 : lineIsSteam (pyStrip l) = true <;>
      simp [h1, h2, h3]

/-! ## The resolution chain (`update_steam_hosts.py`) -/

/-- Observable behaviour of the external commands the updater shells out to.
For each call, `none` models any failure the source's `try`/`except Exception`
(or its `has_cmd` guard) turns into an empty result: tool absent, non-zero
exit, timeout, or any other raised exception.  `some out` models a
successful call whose standard output is `out`. -/
structure DnsEnv where
  dig : String → String → Option String
  nslookup : String → String → Option String
  getent : String → Option String

/-- `resolve_with_dig`: keep the stripped non-blank output lines that
contain no colon. -/
def resolve_with_dig (env : DnsEnv) (domain dns : String) : List String :=
  match env.dig domain dns with
  | none => []
  | some out =>
    (pySplitlines out).filterMap (fun line =>
      if pyStrip line ≠ "" && !line.data.contains ':' then some (pyStrip line) else none)

/-- `resolve_with_nslookup`: keep, from each stripped line that lowercases
to an `address:`-led line, the colon-free non-empty payload after the first
colon. -/
def resolve_with_nslookup (env : DnsEnv) (domain dns : String) : List String :=
  match env.nslookup domain dns with
  | none => []
  | some out =>
    (pySplitlines out).filterMap (fun line0 =>
      let line := pyStrip line0
      if ("address:".data).isPrefixOf (lowerStr line).data then
        let ip := pyStrip (String.mk (afterFirstColon line.data))
        if ip ≠ "" && !ip.data.contains ':' then some ip else none
      else none)

/-- `resolve_system`: first whitespace token of each `getent ahosts` output
line, kept when it contains a dot, then `sorted(set(...))`. -/
def resolve_system (env : DnsEnv) (domain : String) : List String :=
  match env.getent domain with
  | none => []
  | some out =>
    sortedDedup ((pySplitlines out).filterMap (fun line =>
      match pySplitTokens line.data with
      | [] => none
      | p :: _ => if p.contains '.' then some (String.mk p) else none))

/-- `resolve_domain`: per server, `dig` first, then `nslookup` if `dig` gave
nothing; return `sorted(set(ips))` at the first server yielding anything,
else fall back to the system resolver. -/
def resolve_domain (env : DnsEnv) (domain : String) : List String → List String
  | [] => sortedDedup (resolve_system env domain)
  | dns :: rest =>
    let ips := resolve_with_dig env domain dns
    let ips := if ips = [] then resolve_with_nslookup env domain dns else ips
    if ips = [] then resolve_domain env domain rest else sortedDedup ips

/-- What one configured server yields: `dig`'s results, or `nslookup`'s when
`dig` gave nothing. -/
def serverIps (env : DnsEnv) (domain dns : String) : List String :=
  let ips := resolve_with_dig env domain dns
  if ips = [] then resolve_with_nslookup env domain dns else ips

/-- Events recording which resolver step ran, in order. -/
inductive ResolveEvent where
  | digCall (dns : String)
  | nslookupCall (dns : String)
  | systemCall
deriving DecidableEq, BEq

/-- `resolve_domain` instrumented with the sequence of resolver invocations
it performs. -/
def resolve_domain_trace (env : DnsEnv) (domain : String) :
    List String → List String × List ResolveEvent
  | [] => (sortedDedup (resolve_system env domain), [ResolveEvent.systemCall])
  | dns :: rest =>
    let digIps := resolve_with_dig env domain dns
    let ev := ResolveEvent.digCall dns ::
      (if digIps = [] then [ResolveEvent.nslookupCall dns] else [])
    let ips := if digIps = [] then resolve_with_nslookup env domain dns else digIps
    if ips = [] then
      let r := resolve_domain_trace env domain rest
      (r.1, ev ++ r.2)
    else (sortedDedup ips, ev)

theorem resolve_domain_trace_fst (env : DnsEnv) (domain : String) :
    ∀ servers, (resolve_domain_trace env domain servers).1 = resolve_domain env domain servers
  | [] => rfl
  | dns :: rest => by
    simp only [resolve_domain_trace, resolve_domain]
    split
    · split <;> simp [resolve_domain_trace_fst env domain rest]
    · rfl

/-! ## The updater orchestrator (`update_steam_hosts.main`) -/

/-- The command-line arguments of the updater that affect its behaviour. -/
structure UpdaterArgs where
  backupDir : String
  dnsServers : List String
  dryRun : Bool

/-- The observable outcome of one updater run: its exit code, the content of
the hosts file afterwards (`none` when the path did not exist), the backup
file written (path and copied bytes), and the entry lines printed when the
dry-run branch is taken. -/
structure UpdaterResult where
  exitCode : Nat
  finalHosts : Option String
  backup : Option (String × String)
  printedEntries : Option (List String)

/-- The header marker line, embedding the run's timestamp. -/
def hostsHeader (ts : String) : String :=
  "# === Steam hosts (auto-generated) " ++ ts ++ " ==="

/-- The footer marker line. -/
def hostsFooter : String := "# === End Steam hosts ==="

/-- The `new_entries` list: one `ip\tdomain` line per resolved address, in
domain order (domains resolving to nothing contribute nothing). -/
def proposedEntries (env : DnsEnv) (dnsServers : List String) : List String :=
  STEAM_DOMAINS.flatMap (fun domain =>
    (resolve_domain env domain dnsServers).map (fun ip => ip ++ "\t" ++ domain))

/-- Python `"\n".join(lines)`. -/
def joinLines : List String → String
  | [] => ""
  | [l] => l
  | l :: ls => l ++ "\n" ++ joinLines ls

/-- `update_steam_hosts.main`, given the timestamp string `ts`, the parsed
arguments, and the current hosts-file content (`none` when the path does not
exist). -/
def updater_main (env : DnsEnv) (ts : String) (args : UpdaterArgs)
    (hosts : Option String) : UpdaterResult :=
  match hosts with
  | none => { exitCode := 1, finalHosts := none, backup := none, printedEntries := none }
  | some content =>
    let backup := (args.backupDir ++ "/hosts_" ++ ts ++ ".bak", content)
    let fr := filterHosts (pySplitlines content)
    let new_entries := proposedEntries env args.dnsServers
    let final_lines := fr.1 ++ [hostsHeader ts] ++ new_entries ++ [hostsFooter]
    if args.dryRun then
      { exitCode := 0, finalHosts := some content, backup := some backup,
        printedEntries := some new_entries }
    else
      { exitCode := 0, finalHosts := some (joinLines final_lines ++ "\n"),
        backup := some backup, printedEntries := none }

/-! ## The verifier (`verify_steam_hosts.py`) -/

/-- Observable behaviour of `socket.getaddrinfo`: `none` for any raised
exception, `some ips` for a successful call whose records carry the
addresses `ips` (each `info[4][0]`), in order. -/
structure VerifyEnv where
  getaddrinfo : String → Option (List String)

/-- `verify_steam_hosts.system_resolve`: drop addresses containing a colon,
then `sorted(set(ips))`; any exception gives `[]`. -/
def system_resolve (env : VerifyEnv) (domain : String) : List String :=
  match env.getaddrinfo domain with
  | none => []
  | some ips => sortedDedup (ips.filter (fun ip => !ip.data.contains ':'))

/-- One iteration of the `parse_hosts` loop: skip a blank or comment line
or a line with fewer than two tokens; otherwise map each token after the
first to the first token (the address), overriding earlier bindings. -/
def parseHostsLine (m : String → Option String) (line : String) : String → Option String :=
  let stripped := pyStrip line
  if stripped = "" || startsWithHash stripped then m
  else
    match pySplitTokens stripped.data with
    | [] => m
    | [_] => m
    | ip :: domains =>
      domains.foldl (fun m d q => if q = String.mk d then some (String.mk ip) else m q) m

/-- `verify_steam_hosts.parse_hosts` as a lookup function: the mapping from
domain to the address most recently associated with it in file order. -/
def parse_hosts (content : String) : String → Option String :=
  (pySplitlines content).foldl parseHostsLine (fun _ => none)

/-- `verify_steam_hosts.main`, given the hosts-file content (`none` when the
path does not exist): `1` when the file is missing, else `0` when every
managed domain passes the per-domain check and `2` otherwise.  `m domain`
being `none` or the empty string is the falsy `host_ip` branch of the
source. -/
def verifier_main (env : VerifyEnv) (hosts : Option String) : Nat :=
  match hosts with
  | none => 1
  | some content =>
    let m := parse_hosts content
    let ok := STEAM_DOMAINS.all (fun domain =>
      match m domain with
      | none => false
      | some ip => if ip = "" then false else (system_resolve env domain).contains ip)
    if ok then 0 else 2

/-! ## Theorems -/

theorem flatMap_eq_nil_of {α β : Type} (l : List α) (f : α → List β)
    (h : ∀ a ∈ l, f a = []) : l.flatMap f = [] := by
  induction l with
  | nil => rfl
  | cons a as ih =>
    simp only [List.flatMap_cons, h a (List.mem_cons_self a as),
      List.nil_append]
    exact ih (fun a ha => h a (List.mem_cons_of_mem _ ha))

theorem not_keepLineB (l : String) :
    (!keepLineB l) =
      (!(decide (pyStrip l = "") || startsWithHash (pyStrip l)) && lineIsSteam (pyStrip l)) := by
  unfold keepLineB
  by_cases h1 : pyStrip l = "" <;> by_cases h2 : startsWithHash (pyStrip l) = true <;>
    by_cases h3 : lineIsSteam (pyStrip l) = true <;> simp [h1, h2, h3]

/-- C1 (counterexample): on the line `"1.2.3.4\tsteamcommunity.com"` the
managed domain `steamcommunity.com` is a whitespace-delimited token, so the
claimed filter removes the line, but the actual filter keeps it: the match
requires a literal space before the domain and the separator is a tab. -/
theorem filterHosts_ne_token_filter :
    filterHosts ["1.2.3.4\tsteamcommunity.com"] ≠
      filterHostsClaimed ["1.2.3.4\tsteamcommunity.com"] := by decide

/-- C1 (amended): the filter keeps exactly the lines that are blank, are
comments, or whose stripped content padded with one space on each side does
not contain `" " ++ domain` for any managed domain (a left-space-boundary
substring match, not a token match), and the removed count is the number of
lines failing that test. -/
theorem filterHosts_characterization (lines : List String) :
    (filterHosts lines).1 = lines.filter keepLineB
  ∧ (filterHosts lines).2 = lines.countP (fun l => !keepLineB l)
  ∧ ∀ l, (keepLineB l = false ↔
      (pyStrip l ≠ "" ∧ startsWithHash (pyStrip l) = false ∧ lineIsSteam (pyStrip l) = true)) := by
  refine ⟨by rw [filterHosts_eq], by rw [filterHosts_eq], fun l => ?_⟩
  unfold keepLineB
  by_cases h1 : pyStrip l = "" <;> by_cases h2 : startsWithHash (pyStrip l) = true <;>
    by_cases h3 : lineIsSteam (pyStrip l) = true <;> simp [h1, h2, h3]

/-- C8: blank lines and comment lines always survive the filter, whatever
their text, and the removed count only counts lines that are neither blank
nor comments and that match a managed domain. -/
theorem blank_comment_lines_kept (lines : List String) :
    (∀ l ∈ lines, (pyStrip l = "" ∨ startsWithHash (pyStrip l) = true) →
      l ∈ (filterHosts lines).1)
  ∧ (filterHosts lines).2 =
      lines.countP (fun l =>
        !(decide (pyStrip l = "") || startsWithHash (pyStrip l)) && lineIsSteam (pyStrip l)) := by
  rw [filterHosts_eq]
  refine ⟨fun l hl hbc => ?_, ?_⟩
  · refine List.mem_filter.mpr ⟨hl, ?_⟩
    unfold keepLineB
    rcases hbc with h | h <;> simp [h]
  · exact List.countP_congr (fun l _ => by rw [not_keepLineB l])

/-- C8 witness: a comment line mentioning a managed domain passes through. -/
theorem blank_comment_lines_kept_witness :
    "# steamcommunity.com" ∈ (filterHosts ["# steamcommunity.com"]).1 :=
  (blank_comment_lines_kept ["# steamcommunity.com"]).1 "# steamcommunity.com"
    (by decide) (Or.inr (by decide))

/-- An environment in which `dig` answers `1.2.3.4` for every query and the
other resolvers fail. -/
def envDigOnly : DnsEnv :=
  ⟨fun _ _ => some "1.2.3.4\n", fun _ _ => none, fun _ => none⟩

/-- Updater arguments: default backup dir, one DNS server, no dry run. -/
def argsUpdate : UpdaterArgs := ⟨"./hosts_backup", ["8.8.8.8"], false⟩

/-- C3 (code bug): the managed entry line the first run writes
(`"1.2.3.4\tsteamcommunity.com"`) is not removed by the second run's filter
(the filter needs a space before the domain, but the entry uses a tab), so
the second run removes zero lines and the entry appears twice in its
output: repeated runs accumulate duplicate managed entry lines. -/
theorem updater_second_run_accumulates_entries :
    (pySplitlines
        (((updater_main envDigOnly "20240101_000000" argsUpdate (some "")).finalHosts).getD
          "")).count "1.2.3.4\tsteamcommunity.com" = 1
  ∧ (filterHosts (pySplitlines
        (((updater_main envDigOnly "20240101_000000" argsUpdate (some "")).finalHosts).getD
          ""))).2 = 0
  ∧ (pySplitlines
        (((updater_main envDigOnly "20240101_000001" argsUpdate
            ((updater_main envDigOnly "20240101_000000" argsUpdate (some "")).finalHosts)).finalHosts).getD
          "")).count "1.2.3.4\tsteamcommunity.com" = 2 := by decide

/-- C9: whenever the hosts file exists, a timestamp-named copy of its
content is recorded in the backup directory, independently of the dry-run
flag (the backup happens before the flag is consulted). -/
theorem backup_always_written (env : DnsEnv) (ts : String) (args : UpdaterArgs)
    (content : String) :
    (updater_main env ts args (some content)).backup =
      some (args.backupDir ++ "/hosts_" ++ ts ++ ".bak", content) := by
  unfold updater_main
  cases h : args.dryRun <;> simp [h]

/-- C7: with the dry-run flag set and an existing hosts file, the run exits
with code 0, the hosts file's bytes are unchanged, and the proposed new
entries are printed instead of written. -/
theorem dry_run_preserves_hosts (env : DnsEnv) (ts : String) (args : UpdaterArgs)
    (content : String) (h : args.dryRun = true) :
    (updater_main env ts args (some content)).exitCode = 0
  ∧ (updater_main env ts args (some content)).finalHosts = some content
  ∧ (updater_main env ts args (some content)).printedEntries =
      some (proposedEntries env args.dnsServers) := by
  unfold updater_main
  simp [h]

/-- An environment in which every external resolver fails. -/
def envAllFail : DnsEnv := ⟨fun _ _ => none, fun _ _ => none, fun _ => none⟩

/-- Updater arguments with the dry-run flag set. -/
def argsDryRun : UpdaterArgs := ⟨"./hosts_backup", ["8.8.8.8"], true⟩

/-- C7 witness: a dry run over the content `"x"` leaves it unchanged. -/
theorem dry_run_preserves_hosts_witness :
    (updater_main envAllFail "20240101_000000" argsDryRun (some "x")).finalHosts = some "x" :=
  (dry_run_preserves_hosts envAllFail "20240101_000000" argsDryRun "x" rfl).2.1

/-- C10: when no managed domain resolves to anything and the dry-run flag is
off, the updater still exits 0 and writes the filtered lines followed by the
header marker immediately followed by the footer marker: an empty managed
block. -/
theorem empty_resolution_writes_empty_block (env : DnsEnv) (ts : String)
    (args : UpdaterArgs) (content : String) (hdry : args.dryRun = false)
    (hres : ∀ d ∈ STEAM_DOMAINS, resolve_domain env d args.dnsServers = []) :
    (updater_main env ts args (some content)).exitCode = 0
  ∧ (updater_main env ts args (some content)).finalHosts =
      some (joinLines ((filterHosts (pySplitlines content)).1 ++
        [hostsHeader ts, hostsFooter]) ++ "\n") := by
  have hent : proposedEntries env args.dnsServers = [] :=
    flatMap_eq_nil_of _ _ (fun d hd => by rw [hres d hd]; rfl)
  unfold updater_main
  simp [hdry, hent]

/-- C10 witness: with every resolver failing, the run writes exactly the
header and footer and exits 0. -/
theorem empty_resolution_writes_empty_block_witness :
    (updater_main envAllFail "20240101_000000" argsUpdate (some "x")).exitCode = 0
  ∧ (updater_main envAllFail "20240101_000000" argsUpdate (some "x")).finalHosts =
      some (joinLines ((filterHosts (pySplitlines "x")).1 ++
        [hostsHeader "20240101_000000", hostsFooter]) ++ "\n") :=
  empty_resolution_writes_empty_block envAllFail "20240101_000000" argsUpdate "x"
    rfl (by decide)

theorem char_contains_eq_false_iff {c : Char} {l : List Char} :
    l.contains c = false ↔ c ∉ l := by
  simp [List.contains, List.elem_iff]

theorem pyStrip_data_subset (s : String) : (pyStrip s).data ⊆ s.data := by
  intro c hc
  unfold pyStrip at hc
  simp only [List.mem_reverse] at hc
  have h1 : c ∈ (s.data.dropWhile isPySpace).reverse :=
    (List.dropWhile_sublist isPySpace).subset hc
  simp only [List.mem_reverse] at h1
  exact (List.dropWhile_sublist isPySpace).subset h1

theorem resolve_with_dig_no_colon (env : DnsEnv) (domain dns : String) :
    ∀ ip ∈ resolve_with_dig env domain dns, ip.data.contains ':' = false := by
  intro ip hip
  unfold resolve_with_dig at hip
  cases henv : env.dig domain dns with
  | none => rw [henv] at hip; cases hip
  | some out =>
    rw [henv] at hip
    rcases List.mem_filterMap.1 hip with ⟨line, _, hf⟩
    by_cases hcond : (pyStrip line ≠ "" && !line.data.contains ':') = true
    · rw [if_pos hcond] at hf
      cases hf
      have hcond' := hcond
      simp only [Bool.and_eq_true] at hcond'
      have hline : line.data.contains ':' = false := by simpa using hcond'.2
      rw [char_contains_eq_false_iff] at hline ⊢
      exact fun hmem => hline (pyStrip_data_subset line hmem)
    · rw [if_neg hcond] at hf; cases hf

theorem resolve_with_nslookup_no_colon (env : DnsEnv) (domain dns : String) :
    ∀ ip ∈ resolve_with_nslookup env domain dns, ip.data.contains ':' = false := by
  intro ip hip
  unfold resolve_with_nslookup at hip
  cases henv : env.nslookup domain dns with
  | none => rw [henv] at hip; cases hip
  | some out =>
    rw [henv] at hip
    rcases List.mem_filterMap.1 hip with ⟨line0, _, hf⟩
    simp only at hf
    by_cases h1 : ("address:".data).isPrefixOf (lowerStr (pyStrip line0)).data = true
    · rw [if_pos h1] at hf
      by_cases h2 : (pyStrip (String.mk (afterFirstColon (pyStrip line0).data)) ≠ "" &&
          !(pyStrip (String.mk (afterFirstColon (pyStrip line0).data))).data.contains ':') = true
      · rw [if_pos h2] at hf
        cases hf
        have h2' := h2
        simp only [Bool.and_eq_true] at h2'
        simpa using h2'.2
      · rw [if_neg h2] at hf; cases hf
    · rw [if_neg h1] at hf; cases hf

theorem serverIps_no_colon (env : DnsEnv) (domain dns : String) :
    ∀ ip ∈ serverIps env domain dns, ip.data.contains ':' = false := by
  intro ip hip
  unfold serverIps at hip
  by_cases h : resolve_with_dig env domain dns = []
  · rw [if_pos h] at hip
    exact resolve_with_nslookup_no_colon env domain dns ip hip
  · rw [if_neg h] at hip
    exact resolve_with_dig_no_colon env domain dns ip hip

theorem resolve_system_dot (env : DnsEnv) (domain : String) :
    ∀ ip ∈ resolve_system env domain, ip.data.contains '.' = true := by
  intro ip hip
  unfold resolve_system at hip
  cases henv : env.getent domain with
  | none => rw [henv] at hip; cases hip
  | some out =>
    rw [henv] at hip
    rcases List.mem_filterMap.1 (mem_sortedDedup.1 hip) with ⟨line, _, hf⟩
    rcases htok : pySplitTokens line.data with _ | ⟨p, rest⟩
    · rw [htok] at hf; cases hf
    · rw [htok] at hf
      simp only at hf
      by_cases hdot : p.contains '.' = true
      · rw [if_pos hdot] at hf
        cases hf
        exact hdot
      · rw [if_neg hdot] at hf; cases hf

theorem resolve_domain_cons (env : DnsEnv) (domain dns : String) (rest : List String) :
    resolve_domain env domain (dns :: rest) =
      if serverIps env domain dns = [] then resolve_domain env domain rest
      else sortedDedup (serverIps env domain dns) := rfl

/-- C6: for each resolver step, a failed external call (`none`: tool
absent, raised exception, timeout, non-zero exit) yields the same empty
result as a successful call with empty output, and when every external call
fails the whole chain returns `[]` — failures are folded into empty
results, never propagated (every function here is total by construction,
so nothing is ever raised to the caller). -/
theorem resolver_failures_empty (env : DnsEnv) (domain dns : String) :
    (env.dig domain dns = none → resolve_with_dig env domain dns = [])
  ∧ (env.dig domain dns = some "" → resolve_with_dig env domain dns = [])
  ∧ (env.nslookup domain dns = none → resolve_with_nslookup env domain dns = [])
  ∧ (env.nslookup domain dns = some "" → resolve_with_nslookup env domain dns = [])
  ∧ (env.getent domain = none → resolve_system env domain = [])
  ∧ (env.getent domain = some "" → resolve_system env domain = [])
  ∧ ∀ servers : List String,
      (∀ s ∈ servers, env.dig domain s = none ∧ env.nslookup domain s = none) →
      env.getent domain = none →
      resolve_domain env domain servers = [] := by
  refine ⟨fun h => by simp [resolve_with_dig, h],
    fun h => by simp [resolve_with_dig, h, show pySplitlines "" = [] from rfl],
    fun h => by simp [resolve_with_nslookup, h],
    fun h => by simp [resolve_with_nslookup, h, show pySplitlines "" = [] from rfl],
    fun h => by simp [resolve_system, h],
    fun h => by simp [resolve_system, h]; rfl,
    fun servers => ?_⟩
  induction servers with
  | nil =>
    intro _ hget
    simp [resolve_domain, resolve_system, hget]
    rfl
  | cons s ss ih =>
    intro hall hget
    have hs := hall s (List.mem_cons_self s ss)
    have hdig : resolve_with_dig env domain s = [] := by simp [resolve_with_dig, hs.1]
    have hnsl : resolve_with_nslookup env domain s = [] := by
      simp [resolve_with_nslookup, hs.2]
    have hserver : serverIps env domain s = [] := by simp [serverIps, hdig, hnsl]
    rw [resolve_domain_cons, if_pos hserver]
    exact ih (fun x hx => hall x (List.mem_cons_of_mem _ hx)) hget

/-- C6 witness: with every external call failing, `dig` resolution and the
whole chain yield the empty list. -/
theorem resolver_failures_empty_witness :
    resolve_with_dig envAllFail "steamcommunity.com" "8.8.8.8" = []
  ∧ resolve_domain envAllFail "steamcommunity.com" ["8.8.8.8", "1.1.1.1"] = [] :=
  ⟨(resolver_failures_empty envAllFail "steamcommunity.com" "8.8.8.8").1 rfl,
   (resolver_failures_empty envAllFail "steamcommunity.com" "8.8.8.8").2.2.2.2.2.2
     ["8.8.8.8", "1.1.1.1"] (fun _ _ => ⟨rfl, rfl⟩) rfl⟩

/-- An environment in which `dig` and `nslookup` fail and `getent ahosts`
reports the IPv4-mapped IPv6 address `::ffff:1.2.3.4`. -/
def envColonLeak : DnsEnv :=
  ⟨fun _ _ => none, fun _ _ => none, fun _ => some "::ffff:1.2.3.4 STREAM host"⟩

/-- C2 (counterexample): on the system-resolver fallback path the filter is
`"." in parts[0]`, not a colon check, so `::ffff:1.2.3.4` (which contains a
dot) comes back from the chain: the claimed no-colon property fails. -/
theorem resolve_domain_colon_leak :
    ¬ ((resolve_domain envColonLeak "steamcommunity.com" ["8.8.8.8"]).Sorted strLe
     ∧ (resolve_domain envColonLeak "steamcommunity.com" ["8.8.8.8"]).Nodup
     ∧ ∀ ip ∈ resolve_domain envColonLeak "steamcommunity.com" ["8.8.8.8"],
         ip.data.contains ':' = false) := by decide

/-- C2 (amended): the chain's result is always sorted and duplicate-free;
when some configured server yields a result, no returned address contains a
colon; on the system-resolver fallback every returned address is only
guaranteed to contain a dot, so in general every address is colon-free or
contains a dot. -/
theorem resolve_domain_sorted_nodup (env : DnsEnv) (domain : String) :
    ∀ servers : List String,
    (resolve_domain env domain servers).Sorted strLe
  ∧ (resolve_domain env domain servers).Nodup
  ∧ ((∃ dns ∈ servers, serverIps env domain dns ≠ []) →
      ∀ ip ∈ resolve_domain env domain servers, ip.data.contains ':' = false)
  ∧ (∀ ip ∈ resolve_domain env domain servers,
      ip.data.contains ':' = false ∨ ip.data.contains '.' = true)
  | [] => by
    refine ⟨sortedDedup_sorted _, sortedDedup_nodup _, ?_, ?_⟩
    · rintro ⟨dns, hdns, -⟩
      cases hdns
    · intro ip hip
      exact Or.inr (resolve_system_dot env domain ip (mem_sortedDedup.1 hip))
  | dns :: rest => by
    have ih := resolve_domain_sorted_nodup env domain rest
    rw [resolve_domain_cons]
    by_cases h : serverIps env domain dns = []
    · rw [if_pos h]
      refine ⟨ih.1, ih.2.1, ?_, ih.2.2.2⟩
      rintro ⟨x, hx, hxne⟩
      rcases List.mem_cons.1 hx with rfl | hx'
      · exact absurd h hxne
      · exact ih.2.2.1 ⟨x, hx', hxne⟩
    · rw [if_neg h]
      refine ⟨sortedDedup_sorted _, sortedDedup_nodup _, ?_, ?_⟩
      · intro _ ip hip
        exact serverIps_no_colon env domain dns ip (mem_sortedDedup.1 hip)
      · intro ip hip
        exact Or.inl (serverIps_no_colon env domain dns ip (mem_sortedDedup.1 hip))

/-- C2 witness: with `dig` answering, the returned address is colon-free. -/
theorem resolve_domain_sorted_nodup_witness :
    (∃ dns ∈ ["8.8.8.8"], serverIps envDigOnly "steamcommunity.com" dns ≠ [])
  ∧ ("1.2.3.4" ∈ resolve_domain envDigOnly "steamcommunity.com" ["8.8.8.8"])
  ∧ "1.2.3.4".data.contains ':' = false :=
  ⟨by decide, by decide,
    (resolve_domain_sorted_nodup envDigOnly "steamcommunity.com" ["8.8.8.8"]).2.2.1
      (by decide) "1.2.3.4" (by decide)⟩

/-- An environment in which only the DNS server `9.9.9.9` answers, via
`dig`. -/
def envSecondOnly : DnsEnv :=
  ⟨fun _ dns => if dns = "9.9.9.9" then some "1.2.3.4\n" else none,
   fun _ _ => none, fun _ => none⟩

/-- The resolver events one configured server contributes: a `dig` call,
then an `nslookup` call only when `dig` yielded nothing. -/
def serverEvents (env : DnsEnv) (domain dns : String) : List ResolveEvent :=
  ResolveEvent.digCall dns ::
    (if resolve_with_dig env domain dns = [] then [ResolveEvent.nslookupCall dns] else [])

theorem resolve_domain_trace_cons (env : DnsEnv) (domain dns : String) (rest : List String) :
    resolve_domain_trace env domain (dns :: rest) =
      if serverIps env domain dns = [] then
        ((resolve_domain_trace env domain rest).1,
          serverEvents env domain dns ++ (resolve_domain_trace env domain rest).2)
      else (sortedDedup (serverIps env domain dns), serverEvents env domain dns) := rfl

theorem count_systemCall_serverEvents (env : DnsEnv) (domain dns : String) :
    (serverEvents env domain dns).count ResolveEvent.systemCall = 0 := by
  unfold serverEvents
  split <;> rfl

theorem nslookup_mem_serverEvents {env : DnsEnv} {domain dns s : String}
    (h : ResolveEvent.nslookupCall s ∈ serverEvents env domain dns) :
    s = dns ∧ resolve_with_dig env domain dns = [] := by
  unfold serverEvents at h
  rcases List.mem_cons.1 h with heq | h'
  · exact ResolveEvent.noConfusion heq
  · by_cases hd : resolve_with_dig env domain dns = []
    · rw [if_pos hd] at h'
      have heq := List.mem_singleton.1 h'
      injection heq with hs
      exact ⟨hs, hd⟩
    · rw [if_neg hd] at h'
      cases h'

/-- C4: per configured server `dig` runs first and `nslookup` runs only when
`dig` yielded nothing; the chain returns at the first server yielding any
result, with the system resolver never invoked; and when every configured
server yields nothing the system resolver is invoked exactly once and
provides the result. -/
theorem resolve_domain_strategy_order (env : DnsEnv) (domain : String) :
    ∀ servers : List String,
    ((resolve_domain_trace env domain servers).1 = resolve_domain env domain servers)
  ∧ (∀ pre dns post, servers = pre ++ dns :: post →
      (∀ s ∈ pre, serverIps env domain s = []) → serverIps env domain dns ≠ [] →
      resolve_domain env domain servers = sortedDedup (serverIps env domain dns)
      ∧ (resolve_domain_trace env domain servers).2.count ResolveEvent.systemCall = 0)
  ∧ ((∀ s ∈ servers, serverIps env domain s = []) →
      resolve_domain env domain servers = sortedDedup (resolve_system env domain)
      ∧ (resolve_domain_trace env domain servers).2.count ResolveEvent.systemCall = 1)
  ∧ (∀ s, ResolveEvent.nslookupCall s ∈ (resolve_domain_trace env domain servers).2 →
      resolve_with_dig env domain s = [])
  | [] => by
    refine ⟨rfl, ?_, fun _ => ⟨rfl, rfl⟩, ?_⟩
    · intro pre dns post heq
      cases pre <;> simp at heq
    · intro s hs
      have := List.mem_singleton.1 hs
      exact ResolveEvent.noConfusion this
  | dns :: rest => by
    have ih := resolve_domain_strategy_order env domain rest
    by_cases h : serverIps env domain dns = []
    · simp only [resolve_domain_trace_cons, resolve_domain_cons, if_pos h]
      refine ⟨ih.1, ?_, ?_, ?_⟩
      · intro pre dns' post heq hpre hne
        cases pre with
        | nil =>
          simp only [List.nil_append, List.cons.injEq] at heq
          exact absurd (heq.1 ▸ h) hne
        | cons p pre' =>
          simp only [List.cons_append, List.cons.injEq] at heq
          have hrec := ih.2.1 pre' dns' post heq.2
            (fun s hsm => hpre s (heq.1 ▸ List.mem_cons_of_mem _ hsm)) hne
          refine ⟨hrec.1, ?_⟩
          rw [List.count_append, count_systemCall_serverEvents, hrec.2]
      · intro hall
        have hrec := ih.2.2.1 (fun s hsm => hall s (List.mem_cons_of_mem _ hsm))
        refine ⟨hrec.1, ?_⟩
        rw [List.count_append, count_systemCall_serverEvents, hrec.2]
      · intro s hs
        rcases List.mem_append.1 hs with hev | htr
        · rcases nslookup_mem_serverEvents hev with ⟨rfl, hd⟩
          exact hd
        · exact ih.2.2.2 s htr
    · simp only [resolve_domain_trace_cons, resolve_domain_cons, if_neg h]
      refine ⟨trivial, ?_, ?_, ?_⟩
      · intro pre dns' post heq hpre hne
        cases pre with
        | nil =>
          simp only [List.nil_append, List.cons.injEq] at heq
          obtain ⟨rfl, rfl⟩ := heq
          exact ⟨rfl, count_systemCall_serverEvents env domain dns⟩
        | cons p pre' =>
          simp only [List.cons_append, List.cons.injEq] at heq
          exact absurd (heq.1 ▸ hpre p (List.mem_cons_self p pre')) h
      · intro hall
        exact absurd (hall dns (List.mem_cons_self dns rest)) h
      · intro s hs
        rcases nslookup_mem_serverEvents hs with ⟨rfl, hd⟩
        exact hd

/-- C4 witness: with the first server yielding nothing and the second
answering via `dig`, the chain returns the second server's result and never
calls the system resolver. -/
theorem resolve_domain_strategy_order_witness :
    resolve_domain envSecondOnly "steamcommunity.com" ["8.8.8.8", "9.9.9.9"] =
      sortedDedup (serverIps envSecondOnly "steamcommunity.com" "9.9.9.9")
  ∧ (resolve_domain_trace envSecondOnly "steamcommunity.com"
      ["8.8.8.8", "9.9.9.9"]).2.count ResolveEvent.systemCall = 0 :=
  (resolve_domain_strategy_order envSecondOnly "steamcommunity.com"
      ["8.8.8.8", "9.9.9.9"]).2.1 ["8.8.8.8"] "9.9.9.9" [] rfl
    (by decide) (by decide)

theorem str_contains_iff {l : List String} {a : String} : l.contains a = true ↔ a ∈ l := by
  simp [List.contains, List.elem_iff]

theorem splitTokensAux_ne_nil : ∀ (l acc : List Char), ∀ t ∈ splitTokensAux l acc, t ≠ []
  | [], acc => by
    intro t ht
    unfold splitTokensAux at ht
    by_cases h : acc.isEmpty = true
    · rw [if_pos h] at ht
      cases ht
    · rw [if_neg h] at ht
      have heq := List.mem_singleton.1 ht
      subst heq
      intro hrev
      exact h (by simp [List.isEmpty_iff, List.reverse_eq_nil_iff.1 hrev])
  | c :: cs, acc => by
    intro t ht
    unfold splitTokensAux at ht
    by_cases hsp : isPySpace c = true
    · rw [if_pos hsp] at ht
      by_cases he : acc.isEmpty = true
      · rw [if_pos he] at ht
        exact splitTokensAux_ne_nil cs [] t ht
      · rw [if_neg he] at ht
        rcases List.mem_cons.1 ht with rfl | ht'
        · intro hrev
          exact he (by simp [List.isEmpty_iff, List.reverse_eq_nil_iff.1 hrev])
        · exact splitTokensAux_ne_nil cs [] t ht'
    · rw [if_neg hsp] at ht
      exact splitTokensAux_ne_nil cs (c :: acc) t ht

theorem domainsFold_inv (ip : List Char) (hip : ip ≠ []) :
    ∀ (domains : List (List Char)) (m : String → Option String),
      (∀ q v, m q = some v → v ≠ "") →
      ∀ q v, (domains.foldl
          (fun m d q => if q = String.mk d then some (String.mk ip) else m q) m) q = some v →
        v ≠ ""
  | [], m, hm => hm
  | d :: ds, m, hm => by
    refine domainsFold_inv ip hip ds _ ?_
    intro q v hv
    have hv' : (if q = String.mk d then some (String.mk ip) else m q) = some v := hv
    by_cases hq : q = String.mk d
    · rw [if_pos hq] at hv'
      cases hv'
      intro hmk
      exact hip (congrArg String.data hmk)
    · rw [if_neg hq] at hv'
      exact hm q v hv'

theorem parseHostsLine_inv (line : String) (m : String → Option String)
    (hm : ∀ q v, m q = some v → v ≠ "") :
    ∀ q v, parseHostsLine m line q = some v → v ≠ "" := by
  unfold parseHostsLine
  by_cases hb : (pyStrip line = "" || startsWithHash (pyStrip line)) = true
  · rw [if_pos hb]
    exact hm
  · rw [if_neg hb]
    rcases htok : pySplitTokens (pyStrip line).data with _ | ⟨ip, domains⟩
    · exact hm
    · rcases domains with _ | ⟨d, ds⟩
      · exact hm
      · exact domainsFold_inv ip
          (splitTokensAux_ne_nil (pyStrip line).data [] ip
            (show ip ∈ pySplitTokens (pyStrip line).data by
              rw [htok]; exact List.mem_cons_self _ _))
          (d :: ds) m hm

theorem parse_hosts_ne_empty (content : String) :
    ∀ d ip, parse_hosts content d = some ip → ip ≠ "" := by
  unfold parse_hosts
  have h : ∀ (lines : List String) (m : String → Option String),
      (∀ q v, m q = some v → v ≠ "") →
      ∀ q v, (lines.foldl parseHostsLine m) q = some v → v ≠ "" := by
    intro lines
    induction lines with
    | nil => exact fun m hm => hm
    | cons l ls ih =>
      intro m hm
      exact ih (parseHostsLine m l) (parseHostsLine_inv l m hm)
  exact h (pySplitlines content) (fun _ => none) (fun q v hv => by cases hv)

/-- C5: given that the hosts path exists, the verifier exits 0 exactly when
every managed domain is bound in the parsed mapping to an address belonging
to the fresh IPv4-only system resolution of that domain, and exits 2 in
every other case. -/
theorem verifier_exit_codes (env : VerifyEnv) (content : String) :
    (verifier_main env (some content) = 0 ↔
      ∀ d ∈ STEAM_DOMAINS, ∃ ip, parse_hosts content d = some ip ∧ ip ∈ system_resolve env d)
  ∧ (verifier_main env (some content) = 2 ↔
      ¬ ∀ d ∈ STEAM_DOMAINS, ∃ ip, parse_hosts content d = some ip ∧ ip ∈ system_resolve env d) := by
  have key : (STEAM_DOMAINS.all (fun domain =>
      match parse_hosts content domain with
      | none => false
      | some ip => if ip = "" then false
        else (system_resolve env domain).contains ip) = true) ↔
      ∀ d ∈ STEAM_DOMAINS, ∃ ip, parse_hosts content d = some ip ∧ ip ∈ system_resolve env d := by
    rw [List.all_eq_true]
    constructor
    · intro hb d hd
      have hbd := hb d hd
      cases hp : parse_hosts content d with
      | none => rw [hp] at hbd; cases hbd
      | some ip =>
        rw [hp] at hbd
        have hbd' : (if ip = "" then false
            else (system_resolve env d).contains ip) = true := hbd
        by_cases hip : ip = ""
        · rw [if_pos hip] at hbd'
          cases hbd'
        · rw [if_neg hip] at hbd'
          exact ⟨ip, rfl, str_contains_iff.1 hbd'⟩
    · intro hP d hd
      rcases hP d hd with ⟨ip, hp, hmem⟩
      rw [hp]
      show (if ip = "" then false else (system_resolve env d).contains ip) = true
      rw [if_neg (parse_hosts_ne_empty content d ip hp)]
      exact str_contains_iff.2 hmem
  have hmain : verifier_main env (some content) =
      if (STEAM_DOMAINS.all (fun domain =>
        match parse_hosts content domain with
        | none => false
        | some ip => if ip = "" then false
          else (system_resolve env domain).contains ip)) = true
      then 0 else 2 := rfl
  rw [hmain]
  by_cases hall : (STEAM_DOMAINS.all (fun domain =>
      match parse_hosts content domain with
      | none => false
      | some ip => if ip = "" then false
        else (system_resolve env domain).contains ip)) = true
  · rw [if_pos hall]
    exact ⟨⟨fun _ => key.1 hall, fun _ => rfl⟩,
      ⟨fun h => absurd h (by decide), fun hn => absurd (key.1 hall) hn⟩⟩
  · rw [if_neg hall]
    exact ⟨⟨fun h => absurd h (by decide), fun hP => absurd (key.2 hP) hall⟩,
      ⟨fun _ => fun hP => absurd (key.2 hP) hall, fun _ => rfl⟩⟩

/-- A hosts file binding every managed domain to `1.2.3.4` on one line. -/
def contentAllMapped : String :=
  "1.2.3.4 api.steampowered.com steamcommunity.com store.steampowered.com help.steampowered.com login.steampowered.com steamcdn-a.akamaihd.net cdn.cloudflare.steamstatic.com"

/-- A system resolver answering `1.2.3.4` for every domain. -/
def envResolveFixed : VerifyEnv := ⟨fun _ => some ["1.2.3.4"]⟩

/-- C5 witness: with every domain mapped to `1.2.3.4` and the live
resolution returning it, the verifier exits 0. -/
theorem verifier_exit_codes_witness :
    verifier_main envResolveFixed (some contentAllMapped) = 0 :=
  (verifier_exit_codes envResolveFixed contentAllMapped).1.2 (by
    intro d hd
    fin_cases hd <;> exact ⟨"1.2.3.4", by decide, by decide⟩)

end SteamHosts
